import Mathlib

/-!
Shallow embedding of the analytics core of the polymarket-arb-research
repository: the three reporting scripts
`scripts/signal_analysis.py`, `scripts/efficiency_heatmap.py` and
`scripts/price_convergence.py`.

Conventions of the embedding:
* SQL / pandas numeric values are modelled as `ℚ` (all arithmetic in the
  scripts is exact on the values considered; display rounding is
  presentation and is not modelled).
* A `timestamp` is an instant modelled as seconds since the epoch (`Nat`);
  the SQL strftime truncation of the timestamp to the hour
  is `t / 3600`, and SQL ordering of the formatted hour strings coincides
  with numeric ordering of the truncated hours.
* Python `NaN` results (mean/max of an empty series, division by a zero
  length) are modelled as `Option.none`.
* The fallible `.iloc[0]` row access on a possibly-empty query result is
  modelled with `Except`.
-/

namespace PolyArb

/-- Row of the `market_snapshots` table as consumed by the scripts. -/
structure Snapshot where
  market_id : Nat
  timestamp : Nat
  price_yes : ℚ
  price_no : ℚ
  spread : ℚ
  volume_24h : ℚ
deriving DecidableEq, Repr

/-- Row of the `markets` table. -/
structure Market where
  id : Nat
  question : String
deriving DecidableEq, Repr

/-!
### Signal tradability classifier (`scripts/signal_analysis.py`)

The script parses `features_json` with `json.loads` inside a bare
`try/except`.  The parse outcome that the code distinguishes is: either
the attempt fails (malformed text, or the decoded value is not a dict so
that `features.get` raises `AttributeError`, both caught by the bare
`except`), or it yields a feature mapping from names to numeric values
(the documented shape of `features_json`).  `json.loads` itself is
library code outside this repository, so the embedding works with its
outcome.
-/

/-- Outcome of attempting to decode a `features_json` string as a feature
mapping: `fail` covers malformed input and non-mapping JSON, `mapping`
carries the decoded name-to-number association list. -/
inductive Parsed where
  | fail
  | mapping (kvs : List (String × ℚ))
deriving DecidableEq, Repr

/-- Embedding of `get_spread` (signal_analysis.py lines 64-69): on any
parse failure return 1.0, on a mapping return the value at key
`spread` with default 1.0 (features.get with key spread). -/
def get_spread : Parsed → ℚ
  | .fail => 1
  | .mapping kvs => (kvs.lookup "spread").getD 1

/-- Row of the `signals` table; `features_json` is carried as its decode
outcome (see `Parsed`). -/
structure Signal where
  signal_type : String
  score : ℚ
  edge_estimate : ℚ
  composite_score : ℚ
  features_json : Parsed
deriving DecidableEq, Repr

/-- Extracted spread of a signal (the spread column). -/
def spreadOf (sig : Signal) : ℚ := get_spread sig.features_json

/-- Tradability classification (signal_analysis.py line 72):
the spread column compared strictly against 0.05. -/
def tradeable (sig : Signal) : Bool := spreadOf sig < 0.05

/-- Arithmetic mean of a list of rationals (`Series.mean` on a nonempty
series); on the empty list this is `0/0 = 0`, and every use below either
guards nonemptiness or wraps the result in `Option` to model `NaN`. -/
def qmean (l : List ℚ) : ℚ := l.sum / l.length

/-- Minimum of a list (used only on nonempty lists; 0 on `[]`). -/
def qmin : List ℚ → ℚ
  | [] => 0
  | x :: xs => xs.foldl min x

/-- Maximum of a list (used only on nonempty lists; 0 on `[]`). -/
def qmax : List ℚ → ℚ
  | [] => 0
  | x :: xs => xs.foldl max x

/-- Fixed iteration order of known signal types
(signal_analysis.py lines 80 and 118). -/
def signalTypesOrder : List String :=
  ["complement", "anchoring", "low_attention", "deadline"]

/-- Third column of a markdown data row: either the dash placeholder of an
absent signal type, or the tradeable count and percentage. -/
inductive TradeCell where
  | dash
  | counts (tradeableCount : Nat) (pct : ℚ)
deriving DecidableEq, Repr

/-- One data row of the README markdown table: the raw signal type that
the row is generated from, the total count, and the tradeable cell. -/
structure MdRow where
  rawType : String
  count : Nat
  cell : TradeCell
deriving DecidableEq, Repr

/-- Embedding of one iteration of the markdown loop
(signal_analysis.py lines 118-125): a type present in the dataset gets
its counts and tradeable percentage, an absent type renders as the
`0 | -` row.  Display rounding and title-casing of the type name are
presentation and not modelled. -/
def mdRow (sigs : List Signal) (t : String) : MdRow :=
  let ofType := sigs.filter (fun s => s.signal_type == t)
  if ofType.length = 0 then
    ⟨t, 0, .dash⟩
  else
    ⟨t, ofType.length,
      .counts (ofType.filter tradeable).length
        ((((ofType.filter tradeable).length : ℚ) / ofType.length) * 100)⟩

/-- Embedding of the markdown table body (signal_analysis.py lines
118-125): one data row per entry of `signalTypesOrder`, in that order. -/
def markdownRows (sigs : List Signal) : List MdRow :=
  signalTypesOrder.map (mdRow sigs)

/-- Highlighted complement-arbitrage section of the report. -/
structure ComplementReport where
  count : Nat
  meanEdge : Option ℚ
  tradeableCount : Option Nat
deriving DecidableEq, Repr

/-- Embedding of the complement-arbitrage section (signal_analysis.py
lines 88-94): the opportunity count is always computed; mean edge and
tradeable count are computed only inside `if complement_count > 0`. -/
def complementReport (sigs : List Signal) : ComplementReport :=
  let comp := sigs.filter (fun s => s.signal_type == "complement")
  if 0 < comp.length then
    { count := comp.length
      meanEdge := some (qmean (comp.map Signal.edge_estimate))
      tradeableCount := some (comp.filter tradeable).length }
  else
    { count := comp.length, meanEdge := none, tradeableCount := none }

/-!
### Efficiency analyzer (`scripts/efficiency_heatmap.py` and the
market-efficiency section of `scripts/signal_analysis.py`)
-/

/-- Validity filter of the efficiency queries:
`WHERE price_yes > 0 AND price_no > 0`. -/
def validSnap (s : Snapshot) : Bool := 0 < s.price_yes && 0 < s.price_no

/-- Gap from par in cents: `(1.0 - (price_yes + price_no)) * 100`. -/
def gapCents (s : Snapshot) : ℚ := (1 - (s.price_yes + s.price_no)) * 100

/-- Hour truncation of a timestamp, the strftime hour bucket key. -/
def hourOf (s : Snapshot) : Nat := s.timestamp / 3600

/-- One output row of the hourly efficiency query
(efficiency_heatmap.py lines 23-34). -/
structure HourRow where
  hour : Nat
  avg_gap_cents : ℚ
  samples : Nat
  min_gap : ℚ
  max_gap : ℚ
deriving DecidableEq, Repr

/-- Aggregates of the `GROUP BY hour` bucket of hour `h` over the valid
snapshots: `AVG`, `COUNT(*)`, `MIN`, `MAX` of the gap. -/
def bucketRow (valid : List Snapshot) (h : Nat) : HourRow :=
  let b := valid.filter (fun s => hourOf s == h)
  { hour := h
    avg_gap_cents := qmean (b.map gapCents)
    samples := b.length
    min_gap := qmin (b.map gapCents)
    max_gap := qmax (b.map gapCents) }

/-- Distinct hour keys of a snapshot list, in ascending order
(`GROUP BY hour ORDER BY hour`). -/
def hourKeys (valid : List Snapshot) : List Nat :=
  List.insertionSort (· ≤ ·) (valid.map hourOf).dedup

/-- Embedding of the hourly efficiency query
(efficiency_heatmap.py lines 23-34): filter to valid snapshots, group by
truncated hour, aggregate per bucket, emit in ascending hour order. -/
def hourlySeries (snaps : List Snapshot) : List HourRow :=
  let valid := snaps.filter validSnap
  (hourKeys valid).map (bucketRow valid)

/-- Derived summary the heatmap script prints from the hourly series
(efficiency_heatmap.py lines 85-89).  The pandas mean/max of an empty
series and the division by a zero `len(df)` produce `NaN`, modelled as
`none`. -/
structure EffSummary where
  total_hours : Nat
  avg_gap : Option ℚ
  max_gap_observed : Option ℚ
  pct_hours_below_fee : Option ℚ
deriving DecidableEq, Repr

/-- Embedding of the summary-stats block of the heatmap script
(efficiency_heatmap.py lines 85-89): it always computes and prints all
four quantities; on an empty series the three derived ones are `NaN`
(`none`), never an error. -/
def effSummary (snaps : List Snapshot) : EffSummary :=
  let df := hourlySeries snaps
  { total_hours := df.length
    avg_gap :=
      if df.length = 0 then none else some (qmean (df.map HourRow.avg_gap_cents))
    max_gap_observed :=
      if df.length = 0 then none else some (qmax (df.map HourRow.max_gap))
    pct_hours_below_fee :=
      if df.length = 0 then none
      else some ((((df.filter (fun r => r.avg_gap_cents < 2)).length : ℚ)
        / df.length) * 100) }

/-- The summary-stats block wrapped as a fallible computation: the code
has no raise path here, so the embedding always succeeds (any Python
exception in the block would surface as `.error`). -/
def effSummaryE (snaps : List Snapshot) : Except String EffSummary :=
  .ok (effSummary snaps)

/-- Output row of the overall market-efficiency query
(signal_analysis.py lines 97-105). -/
structure EffOverall where
  avg_gap_cents : ℚ
  min_gap_cents : ℚ
  max_gap_cents : ℚ
  pct_efficient : ℚ
deriving DecidableEq, Repr

/-- Embedding of the overall market-efficiency query
(signal_analysis.py lines 97-105): `AVG`, `MIN`, `MAX` of the gap and
the percentage of valid snapshots with gap below 2 cents, over
`WHERE price_yes > 0 AND price_no > 0`. -/
def overallEfficiency (snaps : List Snapshot) : EffOverall :=
  let valid := snaps.filter validSnap
  { avg_gap_cents := qmean (valid.map gapCents)
    min_gap_cents := qmin (valid.map gapCents)
    max_gap_cents := qmax (valid.map gapCents)
    pct_efficient :=
      (((valid.filter (fun s => gapCents s < 2)).length : ℚ) / valid.length)
        * 100 }

/-!
### Market selector and convergence stats (`scripts/price_convergence.py`)
-/

/-- Band filter of the selection query
(`WHERE s.price_yes > 0.05 AND s.price_yes < 0.95`); the band is applied
to `price_yes` only. -/
def qualifyingSnap (s : Snapshot) : Bool :=
  0.05 < s.price_yes && s.price_yes < 0.95

/-- Qualifying snapshots of market `m`: the join
`markets m JOIN market_snapshots s ON m.id = s.market_id` restricted to
the band, grouped by `m.id`. -/
def marketSnaps (snaps : List Snapshot) (m : Market) : List Snapshot :=
  (snaps.filter qualifyingSnap).filter (fun s => s.market_id == m.id)

/-- Average `volume_24h` of a snapshot group (`AVG(s.volume_24h)`). -/
def avgVolume (l : List Snapshot) : ℚ := qmean (l.map Snapshot.volume_24h)

/-- Markets that survive `HAVING snapshots > 1000`. -/
def qualifiedMarkets (markets : List Market) (snaps : List Snapshot) :
    List Market :=
  markets.filter (fun m => 1000 < (marketSnaps snaps m).length)

/-- One step of the maximum-by-key fold: keep whichever of the
accumulator and the next element has the larger key. -/
def pickStep {α : Type*} (f : α → ℚ) (acc : Option α) (x : α) : Option α :=
  match acc with
  | none => some x
  | some b => if f b < f x then some x else some b

/-- Embedding of `ORDER BY avg_volume DESC LIMIT 1` over the qualified
markets: a market of maximal average volume, `none` when no market
qualifies (SQL tie order is unspecified; this keeps the earliest of the
maximal ones). -/
def selectMarket (markets : List Market) (snaps : List Snapshot) :
    Option Market :=
  (qualifiedMarkets markets snaps).foldl
    (pickStep (fun m => avgVolume (marketSnaps snaps m))) none

/-- Total price of a snapshot (`price_yes + price_no as total`). -/
def totalPrice (s : Snapshot) : ℚ := s.price_yes + s.price_no

/-- Embedding of the per-market price query (price_convergence.py lines
43-55): all snapshots of the selected market, unfiltered by the price
band, `ORDER BY timestamp`. -/
def convSeries (mid : Nat) (snaps : List Snapshot) : List Snapshot :=
  List.insertionSort (fun a b => a.timestamp ≤ b.timestamp)
    (snaps.filter (fun s => s.market_id == mid))

/-- Convergence stats printed at price_convergence.py lines 110-117.
The reported standard deviation is the square root of `var_total`, the
sample variance with the pandas default `ddof = 1`; the embedding
carries the variance so the development stays in `ℚ`. -/
structure ConvStats where
  count : Nat
  mean_total : ℚ
  var_total : ℚ
  min_total : ℚ
  max_total : ℚ
  pct_below_98 : ℚ
deriving DecidableEq, Repr

/-- Embedding of the convergence-stats block (price_convergence.py lines
110-117) over the ordered series of one market. -/
def convStats (df : List Snapshot) : ConvStats :=
  let totals := df.map totalPrice
  { count := df.length
    mean_total := qmean totals
    var_total :=
      (totals.map (fun x => (x - qmean totals) ^ 2)).sum / (df.length - 1 : ℚ)
    min_total := qmin totals
    max_total := qmax totals
    pct_below_98 :=
      (((df.filter (fun s => totalPrice s < 0.98)).length : ℚ) / df.length)
        * 100 }

/-- Embedding of the whole convergence run: select the market (the
`.iloc[0]` on an empty selection result is the failure the spec names
`NoQualifyingMarket`), then compute the stats of its full ordered
series.  No default market exists: failure of the selection aborts. -/
def convergenceReport (markets : List Market) (snaps : List Snapshot) :
    Except String (Market × ConvStats) :=
  match selectMarket markets snaps with
  | none => .error "NoQualifyingMarket"
  | some m => .ok (m, convStats (convSeries m.id snaps))

/-!
### Helper lemmas
-/

/-- Folding `min` over a list yields the accumulator or a list element. -/
theorem foldl_min_mem_cons {α : Type*} [LinearOrder α] :
    ∀ (xs : List α) (a : α), xs.foldl min a ∈ a :: xs := by
  intro xs
  induction xs with
  | nil => intro a; simp
  | cons x xs ih =>
      intro a
      rw [List.foldl_cons]
      have h := ih (min a x)
      rcases List.mem_cons.mp h with h | h
      · rw [h]
        rcases min_choice a x with hm | hm
        · rw [hm]; exact List.mem_cons_self _ _
        · rw [hm]; exact List.mem_cons_of_mem _ (List.mem_cons_self _ _)
      · exact List.mem_cons_of_mem _ (List.mem_cons_of_mem _ h)

/-- Folding `min` over a list bounds the accumulator and every element. -/
theorem foldl_min_le {α : Type*} [LinearOrder α] :
    ∀ (xs : List α) (a x : α), x ∈ a :: xs → xs.foldl min a ≤ x := by
  intro xs
  induction xs with
  | nil => intro a x hx; simp at hx; simp [hx]
  | cons y ys ih =>
      intro a x hx
      rw [List.foldl_cons]
      rcases List.mem_cons.mp hx with rfl | hx
      · exact le_trans (ih _ _ (List.mem_cons_self _ _)) (min_le_left _ _)
      · rcases List.mem_cons.mp hx with rfl | hx
        · exact le_trans (ih _ _ (List.mem_cons_self _ _)) (min_le_right _ _)
        · exact ih _ _ (List.mem_cons_of_mem _ hx)

/-- Folding `max` over a list yields the accumulator or a list element. -/
theorem foldl_max_mem_cons {α : Type*} [LinearOrder α] :
    ∀ (xs : List α) (a : α), xs.foldl max a ∈ a :: xs := by
  intro xs
  induction xs with
  | nil => intro a; simp
  | cons x xs ih =>
      intro a
      rw [List.foldl_cons]
      have h := ih (max a x)
      rcases List.mem_cons.mp h with h | h
      · rw [h]
        rcases max_choice a x with hm | hm
        · rw [hm]; exact List.mem_cons_self _ _
        · rw [hm]; exact List.mem_cons_of_mem _ (List.mem_cons_self _ _)
      · exact List.mem_cons_of_mem _ (List.mem_cons_of_mem _ h)

/-- Folding `max` over a list dominates the accumulator and every
element. -/
theorem le_foldl_max {α : Type*} [LinearOrder α] :
    ∀ (xs : List α) (a x : α), x ∈ a :: xs → x ≤ xs.foldl max a := by
  intro xs
  induction xs with
  | nil => intro a x hx; simp at hx; simp [hx]
  | cons y ys ih =>
      intro a x hx
      rw [List.foldl_cons]
      rcases List.mem_cons.mp hx with rfl | hx
      · exact le_trans (le_max_left _ _) (ih _ _ (List.mem_cons_self _ _))
      · rcases List.mem_cons.mp hx with rfl | hx
        · exact le_trans (le_max_right _ _) (ih _ _ (List.mem_cons_self _ _))
        · exact ih _ _ (List.mem_cons_of_mem _ hx)

/-- Specification of `qmin` on nonempty lists. -/
theorem qmin_spec {l : List ℚ} (h : l ≠ []) :
    qmin l ∈ l ∧ ∀ x ∈ l, qmin l ≤ x := by
  match l with
  | [] => exact absurd rfl h
  | x :: xs =>
      refine ⟨foldl_min_mem_cons xs x, ?_⟩
      intro y hy
      exact foldl_min_le xs x y hy

/-- Specification of `qmax` on nonempty lists. -/
theorem qmax_spec {l : List ℚ} (h : l ≠ []) :
    qmax l ∈ l ∧ ∀ x ∈ l, x ≤ qmax l := by
  match l with
  | [] => exact absurd rfl h
  | x :: xs =>
      refine ⟨foldl_max_mem_cons xs x, ?_⟩
      intro y hy
      exact le_foldl_max xs x y hy

/-!
### C1 and C2: signal tradability classification and spread extraction
-/

/-- C1.  For every signal, the tradability classification is decided by
strict comparison of the extracted spread against 0.05: a signal with
extracted spread below 0.05 is classified tradeable, and a signal whose
extracted spread equals or exceeds 0.05 is classified non-tradeable. -/
theorem tradability_strict_threshold (sig : Signal) :
    (tradeable sig = true ↔ spreadOf sig < 0.05) ∧
    (spreadOf sig < 0.05 → tradeable sig = true) ∧
    (0.05 ≤ spreadOf sig → tradeable sig = false) := by
  refine ⟨?_, ?_, ?_⟩
  · simp [tradeable]
  · intro h; simpa [tradeable] using h
  · intro h
    simp only [tradeable, decide_eq_false_iff_not, not_lt]
    exact h

/-- Concrete instantiation of C1: a signal with spread exactly 0.05 is
non-tradeable, one with spread 0.03 is tradeable. -/
theorem tradability_strict_threshold_witness :
    tradeable ⟨"complement", 0, 0, 0, .mapping [("spread", 0.05)]⟩ = false ∧
    tradeable ⟨"complement", 0, 0, 0, .mapping [("spread", 0.03)]⟩ = true :=
  ⟨(tradability_strict_threshold
      ⟨"complement", 0, 0, 0, .mapping [("spread", 0.05)]⟩).2.2
      (by norm_num [spreadOf, get_spread, List.lookup]),
   (tradability_strict_threshold
      ⟨"complement", 0, 0, 0, .mapping [("spread", 0.03)]⟩).2.1
      (by norm_num [spreadOf, get_spread, List.lookup])⟩

/-- C2.  Spread extraction is total and never propagates an error: a
parse failure, or a decoded mapping without the key, yields exactly 1.0
(hence a non-tradeable signal); a decoded mapping with the key yields
the value of the `spread` feature. -/
theorem spread_extraction_total_default (sig : Signal) :
    (sig.features_json = .fail → spreadOf sig = 1 ∧ tradeable sig = false) ∧
    (∀ kvs, sig.features_json = .mapping kvs → kvs.lookup "spread" = none →
      spreadOf sig = 1 ∧ tradeable sig = false) ∧
    (∀ kvs v, sig.features_json = .mapping kvs →
      kvs.lookup "spread" = some v → spreadOf sig = v) := by
  refine ⟨?_, ?_, ?_⟩
  · intro h
    have hs : spreadOf sig = 1 := by simp [spreadOf, h, get_spread]
    exact ⟨hs, by simp [tradeable, hs]; norm_num⟩
  · intro kvs h hk
    have hs : spreadOf sig = 1 := by simp [spreadOf, h, get_spread, hk]
    exact ⟨hs, by simp [tradeable, hs]; norm_num⟩
  · intro kvs v h hk
    simp [spreadOf, h, get_spread, hk]

/-- Concrete instantiation of C2: all three extraction branches at
explicit inputs. -/
theorem spread_extraction_total_default_witness :
    (spreadOf ⟨"deadline", 0, 0, 0, .fail⟩ = 1 ∧
      tradeable ⟨"deadline", 0, 0, 0, .fail⟩ = false) ∧
    (spreadOf ⟨"deadline", 0, 0, 0, .mapping [("score", 2)]⟩ = 1 ∧
      tradeable ⟨"deadline", 0, 0, 0, .mapping [("score", 2)]⟩ = false) ∧
    spreadOf ⟨"deadline", 0, 0, 0, .mapping [("spread", 0.03)]⟩ = 0.03 :=
  ⟨(spread_extraction_total_default ⟨"deadline", 0, 0, 0, .fail⟩).1 rfl,
   (spread_extraction_total_default
      ⟨"deadline", 0, 0, 0, .mapping [("score", 2)]⟩).2.1 [("score", 2)] rfl
      (by simp [List.lookup]),
   (spread_extraction_total_default
      ⟨"deadline", 0, 0, 0, .mapping [("spread", 0.03)]⟩).2.2
      [("spread", 0.03)] 0.03 rfl (by simp [List.lookup])⟩

/-!
### C7 and C10: report builder shape
-/

/-- Markdown data rows carry the signal type they are generated from. -/
theorem mdRow_rawType (sigs : List Signal) (t : String) :
    (mdRow sigs t).rawType = t := by
  simp only [mdRow]
  split <;> rfl

/-- Demo signal used to instantiate the report-builder theorems. -/
def wSig : Signal := ⟨"complement", 1, 5, 2, .mapping [("spread", 0.03)]⟩

/-- C7.  The markdown table always emits exactly 4 data rows, in the
fixed order complement, anchoring, low_attention, deadline, whatever the
dataset; a type with zero observed signals renders as the `0 | -` row
instead of being omitted, and a present type gets its counts. -/
theorem markdown_table_fixed_rows (sigs : List Signal) :
    (markdownRows sigs).length = 4 ∧
    (markdownRows sigs).map MdRow.rawType =
      ["complement", "anchoring", "low_attention", "deadline"] ∧
    ∀ r ∈ markdownRows sigs,
      ((sigs.filter (fun s => s.signal_type == r.rawType)).length = 0 →
        r = ⟨r.rawType, 0, .dash⟩) ∧
      ((sigs.filter (fun s => s.signal_type == r.rawType)).length ≠ 0 →
        r.count = (sigs.filter (fun s => s.signal_type == r.rawType)).length ∧
        r.cell ≠ .dash) := by
  refine ⟨by simp [markdownRows, signalTypesOrder], ?_, ?_⟩
  · simp [markdownRows, signalTypesOrder, mdRow_rawType]
  · intro r hr
    obtain ⟨t, ht, rfl⟩ := List.mem_map.mp hr
    rw [mdRow_rawType]
    constructor
    · intro h0
      simp [mdRow, h0, mdRow_rawType]
    · intro h0
      refine ⟨by simp [mdRow, h0], ?_⟩
      simp [mdRow, h0]

/-- Concrete instantiation of C7: a dataset holding a single complement
signal still renders the anchoring row, as `0 | -`, and the table has
its 4 rows. -/
theorem markdown_table_fixed_rows_witness :
    (markdownRows [wSig]).length = 4 ∧
    mdRow [wSig] "anchoring" = ⟨"anchoring", 0, .dash⟩ := by
  have h := markdown_table_fixed_rows [wSig]
  refine ⟨h.1, ?_⟩
  have hm : mdRow [wSig] "anchoring" ∈ markdownRows [wSig] := by
    simp [markdownRows, signalTypesOrder]
  have h2 := (h.2.2 _ hm).1
  rw [mdRow_rawType] at h2
  exact h2 (by simp [wSig])

/-- C10.  The complement-arbitrage section always reports the total
opportunity count; the mean edge estimate and the tradeable count are
computed only when at least one complement signal exists, and with zero
complement signals only the count 0 is emitted. -/
theorem complement_section_guard (sigs : List Signal) :
    (complementReport sigs).count =
      (sigs.filter (fun s => s.signal_type == "complement")).length ∧
    ((complementReport sigs).count = 0 →
      complementReport sigs = ⟨0, none, none⟩) ∧
    (0 < (complementReport sigs).count →
      (complementReport sigs).meanEdge =
        some (qmean ((sigs.filter (fun s => s.signal_type == "complement")).map
          Signal.edge_estimate)) ∧
      (complementReport sigs).tradeableCount =
        some ((sigs.filter (fun s => s.signal_type == "complement")).filter
          tradeable).length) ∧
    ((complementReport sigs).meanEdge.isSome ↔
      0 < (complementReport sigs).count) := by
  by_cases h : 0 < (sigs.filter (fun s => s.signal_type == "complement")).length
  · refine ⟨by simp [complementReport, h], ?_, ?_, ?_⟩
    · intro h0
      have hc : (complementReport sigs).count =
          (sigs.filter (fun s => s.signal_type == "complement")).length := by
        simp [complementReport, h]
      omega
    · intro _
      exact ⟨by simp [complementReport, h], by simp [complementReport, h]⟩
    · simp [complementReport, h]
  · have h0 : (sigs.filter (fun s => s.signal_type == "complement")).length = 0 := by
      omega
    refine ⟨by simp [complementReport, h, h0], ?_, ?_, ?_⟩
    · intro _
      simp [complementReport, h, h0]
    · intro hpos
      have hc : (complementReport sigs).count =
          (sigs.filter (fun s => s.signal_type == "complement")).length := by
        simp [complementReport, h, h0]
      omega
    · simp [complementReport, h, h0]

/-- Concrete instantiation of C10: the empty dataset yields the bare
count 0, and a dataset with one complement signal computes the mean
edge. -/
theorem complement_section_guard_witness :
    complementReport ([] : List Signal) = ⟨0, none, none⟩ ∧
    (complementReport [wSig]).meanEdge.isSome = true := by
  constructor
  · exact (complement_section_guard []).2.1 rfl
  · exact (complement_section_guard [wSig]).2.2.2.mpr
      (by simp [complementReport, wSig])

/-!
### C3 and C9: hourly efficiency series
-/

/-- Hour bucket of hour `h`: the valid snapshots whose timestamp
truncates to `h`. -/
def hourBucket (snaps : List Snapshot) (h : Nat) : List Snapshot :=
  (snaps.filter validSnap).filter (fun s => hourOf s == h)

/-- Rows of the hourly query carry their bucket hour. -/
theorem bucketRow_hour (valid : List Snapshot) (h : Nat) :
    (bucketRow valid h).hour = h := rfl

/-- The hour column of the hourly series is exactly the sorted key
list. -/
theorem hourlySeries_map_hour (snaps : List Snapshot) :
    (hourlySeries snaps).map HourRow.hour =
      hourKeys (snaps.filter validSnap) := by
  simp [hourlySeries, List.map_map, Function.comp_def, bucketRow_hour]

/-- Membership in the hour keys is existence of a contributing
snapshot. -/
theorem mem_hourKeys {valid : List Snapshot} {h : Nat} :
    h ∈ hourKeys valid ↔ ∃ s ∈ valid, hourOf s = h := by
  unfold hourKeys
  rw [(List.perm_insertionSort _ _).mem_iff, List.mem_dedup, List.mem_map]

/-- C3.  For every valid snapshot the gap is 100 × (1 − price_yes −
price_no) cents; snapshots are bucketed by truncating the timestamp to
the hour, the buckets are emitted in ascending hour order without
duplicates, exactly the nonempty buckets appear, and every row carries
the sample count, the arithmetic mean, the minimum and the maximum of
the gaps of its bucket. -/
theorem hourly_efficiency_correct (snaps : List Snapshot) :
    (∀ s : Snapshot, gapCents s = 100 * (1 - s.price_yes - s.price_no)) ∧
    List.Sorted (· ≤ ·) ((hourlySeries snaps).map HourRow.hour) ∧
    ((hourlySeries snaps).map HourRow.hour).Nodup ∧
    (∀ h : Nat, h ∈ (hourlySeries snaps).map HourRow.hour ↔
      ∃ s ∈ snaps.filter validSnap, hourOf s = h) ∧
    ∀ r ∈ hourlySeries snaps,
      r.samples = (hourBucket snaps r.hour).length ∧
      0 < r.samples ∧
      r.avg_gap_cents =
        ((hourBucket snaps r.hour).map gapCents).sum / r.samples ∧
      r.min_gap ∈ (hourBucket snaps r.hour).map gapCents ∧
      (∀ g ∈ (hourBucket snaps r.hour).map gapCents, r.min_gap ≤ g) ∧
      r.max_gap ∈ (hourBucket snaps r.hour).map gapCents ∧
      (∀ g ∈ (hourBucket snaps r.hour).map gapCents, g ≤ r.max_gap) := by
  refine ⟨fun s => by unfold gapCents; ring, ?_, ?_, ?_, ?_⟩
  · rw [hourlySeries_map_hour]
    exact List.sorted_insertionSort _ _
  · rw [hourlySeries_map_hour]
    exact ((List.perm_insertionSort _ _).nodup_iff).mpr (List.nodup_dedup _)
  · intro h
    rw [hourlySeries_map_hour]
    exact mem_hourKeys
  · intro r hr
    obtain ⟨h, hh, rfl⟩ := List.mem_map.mp hr
    have hb : hourBucket snaps h ≠ [] := by
      obtain ⟨s, hs, hsh⟩ := mem_hourKeys.mp hh
      intro hnil
      have : s ∈ hourBucket snaps h :=
        List.mem_filter.mpr ⟨hs, by simp [hsh]⟩
      simp [hnil] at this
    have hbg : (hourBucket snaps h).map gapCents ≠ [] := by
      simpa using hb
    have hsamples : (bucketRow (snaps.filter validSnap) h).samples =
        (hourBucket snaps h).length := rfl
    refine ⟨hsamples, ?_, ?_, ?_, ?_, ?_, ?_⟩
    · rw [hsamples]
      exact List.length_pos.mpr hb
    · rw [bucketRow_hour, hsamples]
      show qmean ((hourBucket snaps h).map gapCents) = _
      rw [qmean, List.length_map]
    · rw [bucketRow_hour]
      exact (qmin_spec hbg).1
    · rw [bucketRow_hour]
      exact (qmin_spec hbg).2
    · rw [bucketRow_hour]
      exact (qmax_spec hbg).1
    · rw [bucketRow_hour]
      exact (qmax_spec hbg).2

/-- First demo snapshot of the spec scenario (price_yes 0.40,
price_no 0.59). -/
def w1 : Snapshot := ⟨1, 0, 0.40, 0.59, 0, 0⟩

/-- Second demo snapshot of the spec scenario (price_yes 0.50,
price_no 0.49), in the same hour as `w1`. -/
def w2 : Snapshot := ⟨1, 10, 0.50, 0.49, 0, 0⟩

/-- Concrete instantiation of C3 on the spec scenario: the two demo
snapshots fall in hour bucket 0, their gaps are 1 cent each, and the
bucket mean is 1 cent. -/
theorem hourly_efficiency_correct_witness :
    (0 : Nat) ∈ (hourlySeries [w1, w2]).map HourRow.hour ∧
    gapCents w1 = 1 ∧
    qmean ((hourBucket [w1, w2] 0).map gapCents) = 1 := by
  have h := hourly_efficiency_correct [w1, w2]
  refine ⟨?_, ?_, ?_⟩
  · refine (h.2.2.2.1 0).mpr ⟨w1, ?_, rfl⟩
    refine List.mem_filter.mpr ⟨by simp, ?_⟩
    simp only [validSnap, w1]
    norm_num
  · rw [h.1 w1]
    norm_num [w1]
  · have hw : ([w1, w2].filter validSnap) = [w1, w2] := by
      norm_num [validSnap, w1, w2, List.filter]
    unfold hourBucket
    rw [hw]
    norm_num [hourOf, w1, w2, List.filter, qmean, gapCents]

/-- C9.  Snapshots with price_yes ≤ 0 or price_no ≤ 0 contribute to no
efficiency calculation: restricting to the valid snapshots changes
neither the hourly series nor the overall statistics, and appending an
invalid snapshot to the dataset leaves both untouched. -/
theorem invalid_snapshots_excluded (snaps : List Snapshot) (s : Snapshot) :
    hourlySeries (snaps.filter validSnap) = hourlySeries snaps ∧
    overallEfficiency (snaps.filter validSnap) = overallEfficiency snaps ∧
    (validSnap s = false →
      hourlySeries (snaps ++ [s]) = hourlySeries snaps ∧
      overallEfficiency (snaps ++ [s]) = overallEfficiency snaps) := by
  have hff : (snaps.filter validSnap).filter validSnap =
      snaps.filter validSnap := by simp
  refine ⟨?_, ?_, ?_⟩
  · simp [hourlySeries, hff]
  · simp [overallEfficiency, hff]
  · intro hs
    have hap : (snaps ++ [s]).filter validSnap = snaps.filter validSnap := by
      simp [List.filter_append, hs]
    exact ⟨by simp [hourlySeries, hap], by simp [overallEfficiency, hap]⟩

/-- Invalid demo snapshot (price_yes = 0). -/
def wBad : Snapshot := ⟨1, 0, 0, 0.5, 0, 0⟩

/-- Concrete instantiation of C9: appending a zero-price snapshot leaves
the hourly series of the demo dataset unchanged. -/
theorem invalid_snapshots_excluded_witness :
    hourlySeries ([w1] ++ [wBad]) = hourlySeries [w1] ∧
    overallEfficiency ([w1] ++ [wBad]) = overallEfficiency [w1] :=
  (invalid_snapshots_excluded [w1] wBad).2.2 (by simp [validSnap, wBad])

/-!
### C4 and C5: market selector
-/

/-- Specification of the maximum-by-key fold: a returned element comes
from the list or the initial accumulator, and its key dominates every
list element and the accumulator. -/
theorem foldl_pick_spec {α : Type*} (f : α → ℚ) :
    ∀ (l : List α) (acc : Option α) (m : α),
      l.foldl (pickStep f) acc = some m →
      (m ∈ l ∨ acc = some m) ∧ (∀ x ∈ l, f x ≤ f m) ∧
      (∀ b, acc = some b → f b ≤ f m) := by
  intro l
  induction l with
  | nil =>
      intro acc m hm
      simp only [List.foldl_nil] at hm
      refine ⟨Or.inr hm, by simp, fun b hb => ?_⟩
      rw [hm] at hb
      cases hb
      exact le_refl _
  | cons x l ih =>
      intro acc m hm
      rw [List.foldl_cons] at hm
      rcases acc with _ | b
      · have h := ih (some x) m (by simpa [pickStep] using hm)
        refine ⟨?_, ?_, ?_⟩
        · rcases h.1 with h1 | h1
          · exact Or.inl (List.mem_cons_of_mem _ h1)
          · cases h1
            exact Or.inl (List.mem_cons_self _ _)
        · intro y hy
          rcases List.mem_cons.mp hy with rfl | hy
          · exact h.2.2 y rfl
          · exact h.2.1 y hy
        · intro b hb
          cases hb
      · by_cases hfb : f b < f x
        · have h := ih (some x) m (by simpa [pickStep, hfb] using hm)
          refine ⟨?_, ?_, ?_⟩
          · rcases h.1 with h1 | h1
            · exact Or.inl (List.mem_cons_of_mem _ h1)
            · cases h1
              exact Or.inl (List.mem_cons_self _ _)
          · intro y hy
            rcases List.mem_cons.mp hy with rfl | hy
            · exact h.2.2 y rfl
            · exact h.2.1 y hy
          · intro c hc
            cases hc
            exact le_trans (le_of_lt hfb) (h.2.2 x rfl)
        · have h := ih (some b) m (by simpa [pickStep, hfb] using hm)
          refine ⟨?_, ?_, ?_⟩
          · rcases h.1 with h1 | h1
            · exact Or.inl (List.mem_cons_of_mem _ h1)
            · exact Or.inr h1
          · intro y hy
            rcases List.mem_cons.mp hy with rfl | hy
            · exact le_trans (not_lt.mp hfb) (h.2.2 b rfl)
            · exact h.2.1 y hy
          · intro c hc
            cases hc
            exact h.2.2 b rfl

/-- Any market the selector returns is an input market, survives the
>1000-snapshot threshold, and maximises the average volume among the
markets that do. -/
theorem selectMarket_sound (markets : List Market) (snaps : List Snapshot)
    (m : Market) (hm : selectMarket markets snaps = some m) :
    m ∈ markets ∧ 1000 < (marketSnaps snaps m).length ∧
    ∀ m2 ∈ markets, 1000 < (marketSnaps snaps m2).length →
      avgVolume (marketSnaps snaps m2) ≤ avgVolume (marketSnaps snaps m) := by
  have h := foldl_pick_spec (fun mk => avgVolume (marketSnaps snaps mk))
    (qualifiedMarkets markets snaps) none m hm
  have hmem : m ∈ qualifiedMarkets markets snaps := by
    rcases h.1 with h1 | h1
    · exact h1
    · cases h1
  have hq := List.mem_filter.mp hmem
  refine ⟨hq.1, by simpa using hq.2, ?_⟩
  intro m2 hm2 hlen
  exact h.2.1 m2 (List.mem_filter.mpr ⟨hm2, by simpa using hlen⟩)

/-- C4.  Whenever the market selector returns a market, that market is
one of the input markets, it has strictly more than 1000 qualifying
snapshots (band 0.05 < price_yes < 0.95), and its average volume_24h
over its qualifying snapshots is maximal among every market with more
than 1000 qualifying snapshots. -/
theorem market_selector_spec (markets : List Market) (snaps : List Snapshot)
    (m : Market) (hm : selectMarket markets snaps = some m) :
    m ∈ markets ∧ 1000 < (marketSnaps snaps m).length ∧
    ∀ m2 ∈ markets, 1000 < (marketSnaps snaps m2).length →
      avgVolume (marketSnaps snaps m2) ≤ avgVolume (marketSnaps snaps m) :=
  selectMarket_sound markets snaps m hm

/-- C5.  If no market has more than 1000 qualifying snapshots, the
selector yields nothing and the convergence report fails with
NoQualifyingMarket instead of returning a default market. -/
theorem no_qualifying_market_fails (markets : List Market)
    (snaps : List Snapshot)
    (h : ∀ m ∈ markets, ¬ 1000 < (marketSnaps snaps m).length) :
    selectMarket markets snaps = none ∧
    convergenceReport markets snaps = .error "NoQualifyingMarket" := by
  have hq : qualifiedMarkets markets snaps = [] := by
    rw [qualifiedMarkets, List.filter_eq_nil_iff]
    intro m hm
    simpa using h m hm
  have hs : selectMarket markets snaps = none := by
    rw [selectMarket, hq]
    rfl
  exact ⟨hs, by simp [convergenceReport, hs]⟩

/-- Concrete instantiation of C5: one market, no snapshots at all. -/
theorem no_qualifying_market_fails_witness :
    selectMarket [⟨1, "q"⟩] [] = none ∧
    convergenceReport [⟨1, "q"⟩] [] = .error "NoQualifyingMarket" :=
  no_qualifying_market_fails [⟨1, "q"⟩] []
    (by intro m hm; simp [marketSnaps])

/-!
### Demo dataset for the market selector: two markets with 1001
qualifying snapshots each and distinct average volumes.
-/

/-- Qualifying demo snapshot of market 1 (volume 1). -/
def wSnapA : Snapshot := ⟨1, 0, 0.5, 0.5, 0, 1⟩

/-- Qualifying demo snapshot of market 2 (volume 2). -/
def wSnapB : Snapshot := ⟨2, 0, 0.5, 0.5, 0, 2⟩

/-- Demo market 1. -/
def wMarketA : Market := ⟨1, "A"⟩

/-- Demo market 2. -/
def wMarketB : Market := ⟨2, "B"⟩

/-- Demo snapshot table: 1001 copies of each demo snapshot. -/
def wSnaps : List Snapshot :=
  List.replicate 1001 wSnapA ++ List.replicate 1001 wSnapB

/-- Demo market table. -/
def wMarkets : List Market := [wMarketA, wMarketB]

/-- Both demo snapshots sit inside the 0.05–0.95 band. -/
theorem wSnaps_qualifying : wSnaps.filter qualifyingSnap = wSnaps := by
  have hA : qualifyingSnap wSnapA = true := by
    simp only [qualifyingSnap, wSnapA]
    norm_num
  have hB : qualifyingSnap wSnapB = true := by
    simp only [qualifyingSnap, wSnapB]
    norm_num
  rw [wSnaps, List.filter_append, List.filter_replicate, List.filter_replicate,
    hA, hB]
  rfl

/-- Qualifying snapshots of demo market 1. -/
theorem wMarketSnapsA :
    marketSnaps wSnaps wMarketA = List.replicate 1001 wSnapA := by
  rw [marketSnaps, wSnaps_qualifying, wSnaps, List.filter_append,
    List.filter_replicate, List.filter_replicate]
  norm_num [wSnapA, wSnapB, wMarketA]

/-- Qualifying snapshots of demo market 2. -/
theorem wMarketSnapsB :
    marketSnaps wSnaps wMarketB = List.replicate 1001 wSnapB := by
  rw [marketSnaps, wSnaps_qualifying, wSnaps, List.filter_append,
    List.filter_replicate, List.filter_replicate]
  norm_num [wSnapA, wSnapB, wMarketB]

/-- Average volume of demo market 1. -/
theorem wAvgA : avgVolume (List.replicate 1001 wSnapA) = 1 := by
  rw [avgVolume, qmean, List.map_replicate, List.sum_replicate,
    List.length_replicate]
  norm_num [wSnapA, nsmul_eq_mul]

/-- Average volume of demo market 2. -/
theorem wAvgB : avgVolume (List.replicate 1001 wSnapB) = 2 := by
  rw [avgVolume, qmean, List.map_replicate, List.sum_replicate,
    List.length_replicate]
  norm_num [wSnapB, nsmul_eq_mul]

/-- Both demo markets survive the >1000-snapshot threshold. -/
theorem wQualified : qualifiedMarkets wMarkets wSnaps = [wMarketA, wMarketB] := by
  rw [qualifiedMarkets, wMarkets, List.filter_cons, List.filter_cons,
    List.filter_nil]
  rw [wMarketSnapsA, wMarketSnapsB, List.length_replicate,
    List.length_replicate]
  rfl

/-- The selector picks demo market 2, the higher-volume one. -/
theorem wSelect : selectMarket wMarkets wSnaps = some wMarketB := by
  rw [selectMarket, wQualified, List.foldl_cons, List.foldl_cons,
    List.foldl_nil]
  show pickStep _ (pickStep _ none wMarketA) wMarketB = some wMarketB
  simp only [pickStep, wMarketSnapsA, wMarketSnapsB, wAvgA, wAvgB]
  norm_num

/-- Concrete instantiation of C4 on the demo dataset: the selector
returns market 2, which qualifies and dominates market 1 on average
volume. -/
theorem market_selector_spec_witness :
    wMarketB ∈ wMarkets ∧ 1000 < (marketSnaps wSnaps wMarketB).length ∧
    avgVolume (marketSnaps wSnaps wMarketA) ≤
      avgVolume (marketSnaps wSnaps wMarketB) := by
  have h := market_selector_spec wMarkets wSnaps wMarketB wSelect
  refine ⟨h.1, h.2.1, h.2.2 wMarketA (by simp [wMarkets]) ?_⟩
  rw [wMarketSnapsA, List.length_replicate]
  norm_num

/-!
### C8: full-series convergence statistics
-/

/-- The per-market series is a permutation of all snapshots of the
market: no price-band condition appears in the price query. -/
theorem convSeries_perm (mid : Nat) (snaps : List Snapshot) :
    (convSeries mid snaps).Perm
      (snaps.filter (fun s => s.market_id == mid)) :=
  List.perm_insertionSort _ _

/-- The per-market series is ordered by timestamp. -/
theorem convSeries_sorted (mid : Nat) (snaps : List Snapshot) :
    (convSeries mid snaps).Pairwise (fun a b => a.timestamp ≤ b.timestamp) := by
  haveI : IsTotal Snapshot (fun a b => a.timestamp ≤ b.timestamp) :=
    ⟨fun a b => Nat.le_total _ _⟩
  haveI : IsTrans Snapshot (fun a b => a.timestamp ≤ b.timestamp) :=
    ⟨fun _ _ _ => Nat.le_trans⟩
  exact List.sorted_insertionSort _ _

/-- The stats block computes count, mean, sample variance (square of
the reported standard deviation), min, max of the totals and the
fraction below 0.98, on any nonempty series. -/
theorem convStats_spec (df : List Snapshot) (hdf : df ≠ []) :
    (convStats df).count = df.length ∧
    (convStats df).mean_total = (df.map totalPrice).sum / df.length ∧
    (convStats df).var_total =
      ((df.map totalPrice).map
          (fun x => (x - qmean (df.map totalPrice)) ^ 2)).sum
        / ((df.length : ℚ) - 1) ∧
    (convStats df).min_total ∈ df.map totalPrice ∧
    (∀ t ∈ df.map totalPrice, (convStats df).min_total ≤ t) ∧
    (convStats df).max_total ∈ df.map totalPrice ∧
    (∀ t ∈ df.map totalPrice, t ≤ (convStats df).max_total) ∧
    (convStats df).pct_below_98 =
      (((df.map totalPrice).filter (fun t => t < 0.98)).length : ℚ)
        / df.length * 100 := by
  have htot : df.map totalPrice ≠ [] := by simpa using hdf
  refine ⟨rfl, ?_, rfl, (qmin_spec htot).1, (qmin_spec htot).2,
    (qmax_spec htot).1, (qmax_spec htot).2, ?_⟩
  · show qmean (df.map totalPrice) = _
    rw [qmean, List.length_map]
  · show ((df.filter (fun s => totalPrice s < 0.98)).length : ℚ)
        / df.length * 100 = _
    rw [List.filter_map, List.length_map]
    rfl

/-- C8.  After a market is selected, the report works on the full
snapshot series of that market: a timestamp-ordered permutation of every snapshot
with its market_id, unfiltered by the 0.05–0.95 band (hence at least as
long as the >1000 qualifying snapshots); per snapshot total = price_yes
+ price_no, and the reported stats are the mean, the dispersion (the
sample variance, square of the reported standard deviation), the min
and the max of total, plus the share of snapshots with total < 0.98. -/
theorem convergence_full_series_stats (markets : List Market)
    (snaps : List Snapshot) (m : Market)
    (hm : selectMarket markets snaps = some m) :
    convergenceReport markets snaps =
      .ok (m, convStats (convSeries m.id snaps)) ∧
    (convSeries m.id snaps).Perm
      (snaps.filter (fun s => s.market_id == m.id)) ∧
    (convSeries m.id snaps).Pairwise
      (fun a b => a.timestamp ≤ b.timestamp) ∧
    1000 < (convSeries m.id snaps).length ∧
    (∀ s : Snapshot, totalPrice s = s.price_yes + s.price_no) ∧
    (convStats (convSeries m.id snaps)).count =
      (convSeries m.id snaps).length ∧
    (convStats (convSeries m.id snaps)).mean_total =
      ((convSeries m.id snaps).map totalPrice).sum
        / (convSeries m.id snaps).length ∧
    (convStats (convSeries m.id snaps)).var_total =
      (((convSeries m.id snaps).map totalPrice).map
          (fun x => (x - qmean ((convSeries m.id snaps).map totalPrice)) ^ 2)).sum
        / (((convSeries m.id snaps).length : ℚ) - 1) ∧
    (convStats (convSeries m.id snaps)).min_total ∈
      (convSeries m.id snaps).map totalPrice ∧
    (∀ t ∈ (convSeries m.id snaps).map totalPrice,
      (convStats (convSeries m.id snaps)).min_total ≤ t) ∧
    (convStats (convSeries m.id snaps)).max_total ∈
      (convSeries m.id snaps).map totalPrice ∧
    (∀ t ∈ (convSeries m.id snaps).map totalPrice,
      t ≤ (convStats (convSeries m.id snaps)).max_total) ∧
    (convStats (convSeries m.id snaps)).pct_below_98 =
      ((((convSeries m.id snaps).map totalPrice).filter
          (fun t => t < 0.98)).length : ℚ)
        / (convSeries m.id snaps).length * 100 := by
  have hlen : 1000 < (convSeries m.id snaps).length := by
    have hq := (selectMarket_sound markets snaps m hm).2.1
    have h1 : (marketSnaps snaps m).length ≤
        (snaps.filter (fun s => s.market_id == m.id)).length := by
      rw [marketSnaps, List.filter_comm]
      exact List.Sublist.length_le (List.filter_sublist _)
    have h2 : (convSeries m.id snaps).length =
        (snaps.filter (fun s => s.market_id == m.id)).length :=
      (convSeries_perm m.id snaps).length_eq
    omega
  have hdf : convSeries m.id snaps ≠ [] := by
    intro hnil
    rw [hnil] at hlen
    simp at hlen
  have hs := convStats_spec (convSeries m.id snaps) hdf
  refine ⟨by simp [convergenceReport, hm], convSeries_perm m.id snaps,
    convSeries_sorted m.id snaps, hlen, fun s => rfl,
    hs.1, hs.2.1, hs.2.2.1, hs.2.2.2.1, hs.2.2.2.2.1, hs.2.2.2.2.2.1,
    hs.2.2.2.2.2.2.1, hs.2.2.2.2.2.2.2⟩

/-- Concrete instantiation of C8 on the demo dataset: the report runs on
the full series of the selected market 2, which has its 1001 snapshots
(none filtered out). -/
theorem convergence_full_series_stats_witness :
    convergenceReport wMarkets wSnaps =
      .ok (wMarketB, convStats (convSeries wMarketB.id wSnaps)) ∧
    1000 < (convSeries wMarketB.id wSnaps).length := by
  have h := convergence_full_series_stats wMarkets wSnaps wMarketB wSelect
  exact ⟨h.1, h.2.2.2.1⟩

/-!
### C6: behaviour of the summary block on an empty dataset
-/

/-- Refutation of C6 as stated: on the empty dataset the analyzer does
produce an empty series, but the summary block does not fail with an
EmptyDataset error and does not skip the derived metrics — it emits the
summary with every derived metric equal to NaN (`none`). -/
theorem empty_dataset_counterexample :
    hourlySeries ([] : List Snapshot) = [] ∧
    effSummaryE [] ≠ Except.error "EmptyDataset" ∧
    effSummaryE [] = Except.ok ⟨0, none, none, none⟩ :=
  ⟨rfl, fun h => Except.noConfusion h, rfl⟩

/-- C6 amended.  If the set of valid snapshots is empty, the efficiency
analyzer produces an empty series, and report generation does not
raise: it emits the summary section with hour count 0 and NaN
(undefined, modelled `none`) values for the derived metrics — overall
mean gap, max gap, fraction of hours below the fee threshold. -/
theorem empty_dataset_nan_summary (snaps : List Snapshot)
    (h : snaps.filter validSnap = []) :
    hourlySeries snaps = [] ∧
    effSummaryE snaps = Except.ok ⟨0, none, none, none⟩ := by
  have hseries : hourlySeries snaps = [] := by
    unfold hourlySeries
    rw [h]
    rfl
  refine ⟨hseries, ?_⟩
  have hsum : effSummary snaps = ⟨0, none, none, none⟩ := by
    unfold effSummary
    rw [hseries]
    rfl
  show Except.ok (effSummary snaps) = _
  rw [hsum]

/-- Concrete instantiation of the amended C6: a dataset holding only an
invalid snapshot yields the empty series and the NaN summary. -/
theorem empty_dataset_nan_summary_witness :
    hourlySeries [wBad] = [] ∧
    effSummaryE [wBad] = Except.ok ⟨0, none, none, none⟩ :=
  empty_dataset_nan_summary [wBad] (by simp [validSnap, wBad])

end PolyArb
